import Mathlib

/-!
Verification of the micropython-lib USB device stack (`src/micropython/usbd/`)
against its natural-language specification.

The development shallowly embeds the Python source:

* `utils.py` `Buffer` — the interrupt-safe producer/consumer stream buffer —
  as the structure `Buffer` below (byte region as `List Nat`, indices as `Nat`).
  Python `assert` failures are modelled by `Option` (`none` = AssertionError).
* `device.py` `_USBDevice` — descriptor building, control-transfer routing,
  string lookup — as the structure `Dev` below.  Python exceptions
  (AssertionError, struct errors, `list.index` ValueError) are modelled by
  `Option`/`Except`.
* The per-endpoint transfer registry (`_submit_xfer` / `_xfer_cb` /
  `_reset_cb`) as the structure `RegDev` below, with completion callbacks kept
  abstract as values of a type parameter `α` (the code never inspects them,
  it only stores and hands them back).

Machine integers are `Nat`; the 8/16-bit descriptor fields written by
MicroPython `ustruct.pack` are reduced modulo 2^8 / 2^16 where the pack
format truncates.
-/

namespace USBD

/-! ## Stream buffer (`utils.py`, class `Buffer`)

The Python object holds a `bytearray self._b` plus two indices `self._n`
(readable byte count) and `self._w` (start of the pending write window;
`len(self._b)` when no write is pending).  We model the byte region as a
`List Nat` of fixed length. -/

structure Buffer where
  b : List Nat
  n : Nat
  w : Nat
deriving Repr, DecidableEq

/-- Constructor `Buffer.__init__(length)`: `self._b = bytearray(length); self._n = 0;
self._w = length`. -/
def Buffer.init (length : Nat) : Buffer :=
  { b := List.replicate length 0, n := 0, w := length }

/-- Method `writable()`: `len(self._b) - self._n`. -/
def Buffer.writable (s : Buffer) : Nat :=
  s.b.length - s.n

/-- Method `readable()`: `self._n`. -/
def Buffer.readable (s : Buffer) : Nat :=
  s.n

/-- In-place slice assignment `b[i:i+len(xs)] = xs` (the caller guarantees
`i + len(xs) <= len(b)`, as the Python code does). -/
def setSlice (b : List Nat) (i : Nat) (xs : List Nat) : List Nat :=
  b.take i ++ xs ++ b.drop (i + xs.length)

/-- Method `pend_write()`: sets `self._w = self._n` and returns
`memoryview(self._b)[self._w:]`; here we return the updated state, the
returned view being `s.b.drop s.w` of the result. -/
def Buffer.pend_write (s : Buffer) : Buffer :=
  { s with w := s.n }

/-- Method `finish_write(nbytes)`.  `assert nbytes <= len(self._b) - self._w`
(over Python ints, i.e. `self._w + nbytes <= len(self._b)`); if `self._n <
self._w` the pended bytes `self._b[self._w : self._w+nbytes]` are copied
down to `self._b[self._n : self._n+nbytes]` and both indices advance by
`nbytes`; otherwise `assert self._n == self._w` and only `self._n`
advances.  Finally `self._w = len(self._b)`.  `none` models an
`AssertionError`. -/
def Buffer.finish_write (s : Buffer) (nbytes : Nat) : Option Buffer :=
  if s.w + nbytes ≤ s.b.length then
    if s.n < s.w then
      some { b := setSlice s.b s.n ((s.b.drop s.w).take nbytes),
             n := s.n + nbytes,
             w := s.b.length }
    else
      if s.n = s.w then
        some { s with n := s.n + nbytes, w := s.b.length }
      else
        none
  else
    none

/-- Method `write(w)`: `pw = self.pend_write(); to_w = min(len(w), len(pw)); if
to_w: pw[:to_w] = w[:to_w]; self.finish_write(to_w); return to_w`.  Returns
the updated state and the byte count `to_w`. -/
def Buffer.write (s : Buffer) (data : List Nat) : Option (Buffer × Nat) :=
  let s1 := s.pend_write
  let to_w := min data.length (s1.b.length - s1.w)
  if to_w = 0 then
    some (s1, 0)
  else
    (Buffer.finish_write { s1 with b := setSlice s1.b s1.w (data.take to_w) } to_w).map
      (fun s2 => (s2, to_w))

/-- Method `pend_read()`: returns `memoryview(self._b)[:self._n]` (no state
change). -/
def Buffer.pend_read (s : Buffer) : List Nat :=
  s.b.take s.n

/-- Body of the compaction loop in `finish_read`: `while i < stop:
self._b[i] = self._b[i + k]; i += 1`.  The loop body runs exactly
`stop - i` times, which we pass as the structural recursion argument
`fuel`.  Indices stay in range in every call the class makes
(`i + k < old self._n <= len(self._b)`), so the out-of-range default of
`getD` is never consulted. -/
def shuffleGo (k : Nat) : Nat → Nat → List Nat → List Nat
  | _, 0, b => b
  | i, fuel + 1, b => shuffleGo k (i + 1) fuel (b.set i (b.getD (i + k) 0))

/-- The compaction loop of `finish_read`, starting at index `i` and
stopping at `stop`. -/
def shuffleLoop (k i stop : Nat) (b : List Nat) : List Nat :=
  shuffleGo k i (stop - i) b

/-- Method `finish_read(nbytes)`: `assert nbytes <= self._n`; `self._n -= nbytes`;
then the remaining readable bytes are shuffled back to the front of the
region.  `none` models an `AssertionError`. -/
def Buffer.finish_read (s : Buffer) (nbytes : Nat) : Option Buffer :=
  if nbytes ≤ s.n then
    some { s with n := s.n - nbytes, b := shuffleLoop nbytes 0 (s.n - nbytes) s.b }
  else
    none

/-- Method `readinto(b)`: `pr = self.pend_read(); to_r = min(len(pr), len(b)); if
to_r: b[:to_r] = pr[:to_r]; self.finish_read(to_r); return to_r`.  Returns
the updated state and the bytes copied out (whose count is the Python
return value). -/
def Buffer.readinto (s : Buffer) (blen : Nat) : Option (Buffer × List Nat) :=
  let pr := s.pend_read
  let to_r := min pr.length blen
  if to_r = 0 then
    some (s, [])
  else
    (s.finish_read to_r).map (fun s2 => (s2, pr.take to_r))

/-! ### Operation sequences on a buffer (for the implicit invariant C10) -/

/-- The operations of the `Buffer` class as invoked by its producer and
consumer. -/
inductive BufOp where
  | pendWrite
  | finishWrite (k : Nat)
  | pendRead
  | finishRead (k : Nat)
  | write (data : List Nat)
  | readinto (blen : Nat)

/-- One operation applied to a buffer state; `none` models a failed
`assert` precondition.  `pend_read` only returns a view and does not change
the state. -/
def Buffer.step (s : Buffer) : BufOp → Option Buffer
  | .pendWrite => some s.pend_write
  | .finishWrite k => s.finish_write k
  | .pendRead => some s
  | .finishRead k => s.finish_read k
  | .write data => (s.write data).map Prod.fst
  | .readinto blen => (s.readinto blen).map Prod.fst

/-- A sequence of buffer operations. -/
def Buffer.run (s : Buffer) : List BufOp → Option Buffer
  | [] => some s
  | op :: ops => (s.step op).bind (fun s2 => Buffer.run s2 ops)

/-- The index invariant of the buffer layout `[0.._n) readable, [_n.._w)
free, [_w..capacity) pending write`. -/
def Buffer.inv (cap : Nat) (s : Buffer) : Prop :=
  s.n ≤ s.w ∧ s.w ≤ s.b.length ∧ s.b.length = cap

/-! ## Transfer registry (`device.py`: `_USBDevice._submit_xfer`,
`_USBDevice._xfer_cb`, `_USBDevice._reset_cb`) -/

/-- Python-dict lookup on an association list keyed by endpoint address. -/
def lookupAssoc {β : Type} : List (Nat × β) → Nat → Option β
  | [], _ => none
  | (k2, v2) :: t, k => if k2 = k then some v2 else lookupAssoc t k

/-- Python-dict assignment `d[k] = v`: replaces the value at the first
occurrence of the key, appending when the key is absent. -/
def setAssoc {β : Type} : List (Nat × β) → Nat → β → List (Nat × β)
  | [], k, v => [(k, v)]
  | (k2, v2) :: t, k, v =>
    if k2 = k then (k, v) :: t else (k2, v2) :: setAssoc t k v

/-- The transfer-registry projection of the `_USBDevice` state:
`self._ep_cbs` (endpoint address ↦ optional completion callback) together
with the `_open` flag of each interface in `self._itfs`
(`USBInterface.handle_open` sets it, `USBInterface.handle_reset` clears
it, `is_open()` returns it).  Completion callbacks are abstract values of
a type parameter `α`: the code never inspects them, it only stores them
and hands them back. -/
structure RegDev (α : Type) where
  ep_cbs : List (Nat × Option α)
  itf_open : List Bool

/-- Outcome of `_USBDevice._submit_xfer`: success, or the exception raised
(`KeyError` from the dict indexing `self._ep_cbs[ep_addr]` on an unknown
endpoint, `RuntimeError("xfer_pending")`, `RuntimeError("submit
failed")`). -/
inductive SubmitRes where
  | ok
  | keyError
  | xferPending
  | submitFailed
deriving DecidableEq, Repr

/-- Method `_USBDevice._submit_xfer(ep_addr, data, done_cb)`.  `hw` is the
boolean returned by the bus-driver call `self._usbd.submit_xfer(ep_addr,
data)`; the data buffer itself does not influence the registry state.
Returns the outcome together with the registry state after the call (on
`submit failed`, the callback just stored is reset to `None` before the
exception propagates). -/
def submitXfer {α : Type} (r : RegDev α) (ep : Nat) (hw : Bool) (done_cb : Option α) :
    SubmitRes × RegDev α :=
  match lookupAssoc r.ep_cbs ep with
  | none => (.keyError, r)
  | some (some _) => (.xferPending, r)
  | some none =>
    let r1 : RegDev α := { r with ep_cbs := setAssoc r.ep_cbs ep done_cb }
    if hw then (.ok, r1)
    else (.submitFailed, { r1 with ep_cbs := setAssoc r1.ep_cbs ep none })

/-- Method `_USBDevice._xfer_cb(ep_addr, result, xferred_bytes)`: looks up the
pending callback with `.get(ep_addr, None)`; if one is registered it is
cleared first and invoked afterwards.  Returns the callback to invoke
(`none` when nothing was pending) together with the registry state in
which that callback runs. -/
def xferCb {α : Type} (r : RegDev α) (ep : Nat) : Option α × RegDev α :=
  match lookupAssoc r.ep_cbs ep with
  | some (some cb) => (some cb, { r with ep_cbs := setAssoc r.ep_cbs ep none })
  | _ => (none, r)

/-- Method `_USBDevice._reset_cb()`: sets every entry of `self._ep_cbs` to `None`
and then calls `handle_reset()` on every registered interface, which sets
its `_open` flag to `False`.  The second component is the list of
completion callbacks invoked along the way — the loop only assigns `None`,
so it is empty. -/
def resetCb {α : Type} (r : RegDev α) : RegDev α × List α :=
  ({ ep_cbs := r.ep_cbs.map (fun p => (p.1, none)),
     itf_open := r.itf_open.map (fun _ => false) }, [])

/-! ## Device composer (`device.py`, class `_USBDevice`)

Descriptor building, string-table lookup and control-transfer routing. -/

/-- Result of a `handle_NNN_control_xfer` handler: `True`, `False`, a
buffer object, or `None`.  Any non-bool result falls through to the
class-driver call `self._usbd.control_xfer(request, result)`. -/
inductive HRes where
  | tru
  | fls
  | buf (data : List Nat)
  | non
deriving DecidableEq, Repr

/-- A control request tuple `(bmRequestType, bRequest, wValue, wIndex,
wLength)`. -/
structure Request where
  bmRequestType : Nat
  bRequest : Nat
  wValue : Nat
  wIndex : Nat
  wLength : Nat
deriving DecidableEq, Repr

/-- A registered `USBInterface` object, abstracted by its overridable
methods (pure functions of their arguments).  The mutable `_open` flag is
part of `RegDev` instead. -/
structure Itf where
  get_endpoint_descriptors : Nat → Nat → List Nat × List String × List Nat
  get_itf_descriptor : Nat → Nat → Nat → List Nat × List String
  handle_device_control_xfer : Nat → Request → HRes
  handle_interface_control_xfer : Nat → Request → HRes
  handle_endpoint_control_xfer : Nat → Request → HRes

/-- The static (compiled-in) values exposed by `self._usbd.static`. -/
structure StaticVals where
  itf_max : Nat
  str_max : Nat
  ep_max : Nat
  desc_cfg : List Nat

/-- The `_USBDevice` state relevant to descriptor building, string lookup
and control-transfer routing.  The configuration build always resets the
values of `self._ep_cbs` to `None`, so `Option Unit` is enough for them
here; the transfer-registry claims use `RegDev` with abstract callbacks. -/
structure Dev where
  itfs : List Itf
  include_static : Bool
  static : StaticVals
  manufacturer_str : Option String
  product_str : Option String
  serial_str : Option String
  config_str : Option String
  max_power_ma : Nat
  strs : List String
  eps : List (Nat × Itf)
  ep_cbs : List (Nat × Option Unit)

/-- Method `_USBDevice._get_device_strs()`: the truthy entries (not `None`, not
empty) of `[manufacturer_str, product_str, serial_str, config_str]` in
that order. -/
def getDeviceStrs (d : Dev) : List String :=
  ([d.manufacturer_str, d.product_str, d.serial_str, d.config_str].filterMap id).filter
    (fun s => s ≠ "")

/-- Python `list.index(x)` as a total function: the position of the first
occurrence, `none` for the `ValueError` raised when absent. -/
def indexOfStr : List String → String → Option Nat
  | [], _ => none
  | t :: rest, x => if t = x then some 0 else (indexOfStr rest x).map (· + 1)

/-- Method `_USBDevice._get_str_index(s)`: `0` for a falsy `s` (`None` or empty),
otherwise `str_max + self._strs.index(s)`; `none` models the `ValueError`
raised by `list.index` when `s` is missing from the table. -/
def getStrIndex (str_max : Nat) (strs : List String) (s : Option String) : Option Nat :=
  match s with
  | none => some 0
  | some t =>
    if t = "" then some 0
    else (indexOfStr strs t).map (fun i => str_max + i)

/-- Exceptions of the device-composer callbacks that we track. -/
inductive PyErr where
  | assertionError
deriving DecidableEq, Repr

/-- Method `_USBDevice._get_interface(index)`: subtracts the static interface
count; `assert index >= 0` fails (AssertionError) when the argument is
below it; an out-of-range index returns `None` ("host has old mappings
for interfaces"). -/
def getInterface (d : Dev) (index : Nat) : Except PyErr (Option Itf) :=
  if index < d.static.itf_max then
    .error .assertionError
  else
    .ok (d.itfs.get? (index - d.static.itf_max))

/-- Function `utils.split_bmRequestType(bmRequestType)`:
`(bm & 0x1F, (bm >> 5) & 0x03, (bm >> 7) & 0x01)`. -/
def split_bmRequestType (bm : Nat) : Nat × Nat × Nat :=
  (bm % 32, bm / 32 % 4, bm / 128 % 2)

/-- What `_control_xfer_cb` returns: a Python bool (`False` = STALL), or
the value of the class-driver call `self._usbd.control_xfer(request,
result)` made with the handler's non-bool result. -/
inductive CtrlResult where
  | pyBool (x : Bool)
  | usbdControlXfer (request : Request) (result : HRes)
deriving DecidableEq, Repr

/-- Tail of `_control_xfer_cb` once a handler result is available: a
`bool` is returned as-is, anything else goes to `self._usbd.control_xfer`. -/
def replyOf (req : Request) : HRes → CtrlResult
  | .tru => .pyBool true
  | .fls => .pyBool false
  | r => .usbdControlXfer req r

/-- Method `_USBDevice._control_xfer_cb(stage, request)`: decode the recipient
from `bmRequestType`; for device/interface recipients look the interface
up by `wIndex & 0xFFFF` through `_get_interface`, for endpoint recipients
through the `self._eps` map; with no owner found, return `False`
(STALL). -/
def controlXferCb (d : Dev) (stage : Nat) (req : Request) : Except PyErr CtrlResult :=
  if (split_bmRequestType req.bmRequestType).1 = 0 then
    match getInterface d (req.wIndex % 65536) with
    | .error e => .error e
    | .ok none => .ok (.pyBool false)
    | .ok (some itf) => .ok (replyOf req (itf.handle_device_control_xfer stage req))
  else if (split_bmRequestType req.bmRequestType).1 = 1 then
    match getInterface d (req.wIndex % 65536) with
    | .error e => .error e
    | .ok none => .ok (.pyBool false)
    | .ok (some itf) => .ok (replyOf req (itf.handle_interface_control_xfer stage req))
  else if (split_bmRequestType req.bmRequestType).1 = 2 then
    match lookupAssoc d.eps (req.wIndex % 65536) with
    | none => .ok (.pyBool false)
    | some itf => .ok (replyOf req (itf.handle_endpoint_control_xfer stage req))
  else
    .ok (.pyBool false)

/-- Method `_USBDevice._descriptor_string_cb(index)`: subtract the static string
count (`assert index >= 0`), then index `self._strs`, returning `None` on
`IndexError` ("host has old mappings"). -/
def descriptorStringCb (d : Dev) (index : Nat) : Except PyErr (Option String) :=
  if index < d.static.str_max then
    .error .assertionError
  else
    .ok (d.strs.get? (index - d.static.str_max))

/-- Expression `e & ~EP_IN_FLAG`: the endpoint address with the direction bit
(bit 7) cleared. -/
def epNum (e : Nat) : Nat :=
  if e.testBit 7 then e - 128 else e

/-- Loop state of `_descriptor_config_cb` while it walks `self._itfs`. -/
structure BuildAcc where
  desc : List Nat
  strs : List String
  eps : List (Nat × Itf)
  ep_cbs : List (Nat × Option Unit)
  itf_idx : Nat
  ep_addr : Nat
  str_idx : Nat

/-- One iteration of the `for itf in self._itfs` loop of
`_descriptor_config_cb`: endpoint descriptors first (so the endpoint count
is known), then the interface descriptor, then record the endpoint-address
map and advance the endpoint-number counter past the highest number
used. -/
def buildStep (acc : BuildAcc) (itf : Itf) : BuildAcc :=
  let epd := itf.get_endpoint_descriptors acc.ep_addr acc.str_idx
  let str_idx1 := acc.str_idx + epd.2.1.length
  let itfd := itf.get_itf_descriptor epd.2.2.length acc.itf_idx str_idx1
  let folded := epd.2.2.foldl
    (fun (p : List (Nat × Itf) × List (Nat × Option Unit) × Nat) e =>
      (setAssoc p.1 e itf, setAssoc p.2.1 e none, max (epNum e + 1) p.2.2))
    (acc.eps, acc.ep_cbs, acc.ep_addr)
  { desc := acc.desc ++ itfd.1 ++ epd.1,
    strs := acc.strs ++ epd.2.1 ++ itfd.2,
    eps := folded.1,
    ep_cbs := folded.2.1,
    itf_idx := acc.itf_idx + 1,
    ep_addr := folded.2.2,
    str_idx := str_idx1 + itfd.2.length }

/-- Initial loop state of `_descriptor_config_cb`: the static
configuration descriptor (or a blank 9-byte header when static interfaces
are excluded), the device-level strings, empty endpoint maps, and the
three counters starting after the static interfaces / endpoints /
strings. -/
def buildAcc0 (d : Dev) : BuildAcc :=
  { desc := if d.include_static then d.static.desc_cfg else List.replicate 9 0,
    strs := getDeviceStrs d,
    eps := [],
    ep_cbs := [],
    itf_idx := d.static.itf_max,
    ep_addr := max d.static.ep_max 1,
    str_idx := d.static.str_max + (getDeviceStrs d).length }

/-- Method `_USBDevice._update_configuration_descriptor(desc)`: patch the 9-byte
standard configuration header at the start of `desc` with
`struct.pack_into("<BBHBBBBB", desc, 0, ...)`.  MicroPython `ustruct`
silently truncates each value to its field width, hence `% 256` /
`% 65536` (`wTotalLength` is little-endian: byte 2 is `len % 256`, byte 3
is `len / 256 % 256`).  `none` models the `ValueError` from
`_get_str_index` (note: it consults the *old* `self._strs`, the new table
is assigned only after this call) and the error raised when `desc` is
shorter than the 9-byte header being packed into it. -/
def updateConfigurationDescriptor (d : Dev) (desc : List Nat) : Option (List Nat) :=
  match getStrIndex d.static.str_max d.strs d.config_str with
  | none => none
  | some i0 =>
    if 9 ≤ desc.length then
      some (setSlice desc 0
        [9, 2, desc.length % 256, desc.length / 256 % 256,
         ((if d.include_static then d.static.itf_max else 0) + d.itfs.length) % 256,
         1,
         (if d.include_static = true ∧ i0 = 0 then desc.getD 6 0 else i0) % 256,
         (128 + (if d.max_power_ma ≠ 0 then 0 else 64)) % 256,
         d.max_power_ma % 256])
    else
      none

/-- Method `_USBDevice._descriptor_config_cb()`: rebuild the configuration
descriptor, the endpoint maps and the string table from scratch; returns
the updated device state together with the descriptor bytes. -/
def descriptorConfigCb (d : Dev) : Option (Dev × List Nat) :=
  let acc := d.itfs.foldl buildStep (buildAcc0 d)
  match updateConfigurationDescriptor d acc.desc with
  | none => none
  | some desc2 =>
    some ({ d with eps := acc.eps, ep_cbs := acc.ep_cbs, strs := acc.strs }, desc2)

/-- The `bNumInterfaces` byte (offset 4) of the configuration descriptor
that `_descriptor_config_cb` returns, when the build succeeds. -/
def bNumInterfacesField (d : Dev) : Option Nat :=
  match descriptorConfigCb d with
  | none => none
  | some p => some (p.2.getD 4 0)

/-- Base-class `USBInterface.get_itf_descriptor`: the standard 9-byte
interface descriptor packed with `struct.pack("<BBBBBBBBB", ...)` (every
field truncated to a byte), plus the interface string when one is set. -/
def baseGetItfDescriptor (bClass bSub bProto : Nat) (interface_str : Option String) :
    Nat → Nat → Nat → List Nat × List String :=
  fun num_eps itf_idx str_idx =>
    ([9, 4, itf_idx % 256, 0, num_eps % 256, bClass % 256, bSub % 256, bProto % 256,
      (match interface_str with
       | some t => if t = "" then 0 else str_idx
       | none => 0) % 256],
     match interface_str with
     | some t => if t = "" then [] else [t]
     | none => [])

/-- A base-class `USBInterface()` (vendor class `0xFF`, no interface
string): no endpoints, all control handlers return `False`. -/
def baseItf : Itf :=
  { get_endpoint_descriptors := fun _ _ => ([], [], []),
    get_itf_descriptor := baseGetItfDescriptor 255 0 255 none,
    handle_device_control_xfer := fun _ _ => .fls,
    handle_interface_control_xfer := fun _ _ => .fls,
    handle_endpoint_control_xfer := fun _ _ => .fls }

/-- A `_USBDevice` with no registered interfaces and static interfaces
excluded (all device strings unset, default `max_power_ma = 50`). -/
def dev0 : Dev :=
  { itfs := [],
    include_static := false,
    static := { itf_max := 0, str_max := 0, ep_max := 0, desc_cfg := [] },
    manufacturer_str := none,
    product_str := none,
    serial_str := none,
    config_str := none,
    max_power_ma := 50,
    strs := [],
    eps := [],
    ep_cbs := [] }

/-- An interface contributing no descriptor bytes, no strings and no
endpoints (a `USBInterface` subclass whose descriptor callbacks return
empty results); handlers reject like the base class. -/
def nullItf : Itf :=
  { get_endpoint_descriptors := fun _ _ => ([], [], []),
    get_itf_descriptor := fun _ _ _ => ([], []),
    handle_device_control_xfer := fun _ _ => .fls,
    handle_interface_control_xfer := fun _ _ => .fls,
    handle_endpoint_control_xfer := fun _ _ => .fls }

/-- Device `dev0` with 256 registered interfaces. -/
def dev256 : Dev :=
  { dev0 with itfs := List.replicate 256 nullItf }

/-- A device state in which the string table `self._strs` is stale:
reachable from a fresh device by setting `manufacturer_str = "X"` and
`config_str = "C"`, letting the host request the configuration descriptor
once (which sets `self._strs = ["X", "C"]`), and then clearing
`manufacturer_str` back to `None`. -/
def devStale : Dev :=
  { dev0 with config_str := some "C", strs := ["X", "C"] }

/-- The state `_descriptor_config_cb` leaves behind when called on
`devStale`. -/
def devStale1 : Dev :=
  { devStale with strs := ["C"] }

/-- A device with one static interface (`itf_max = 1`) and one registered
Python interface. -/
def devRouteStatic : Dev :=
  { dev0 with
    itfs := [baseItf],
    include_static := true,
    static := { itf_max := 1, str_max := 0, ep_max := 0, desc_cfg := List.replicate 9 0 } }

/-- A device with two static strings (`str_max = 2`) and a two-entry
dynamic string table. -/
def devStrs : Dev :=
  { dev0 with
    static := { itf_max := 0, str_max := 2, ep_max := 0, desc_cfg := [] },
    strs := ["a", "b"] }

/-- An interface whose control handlers accept (`True`), to distinguish a
routed request from a STALL in concrete runs. -/
def okItf : Itf :=
  { get_endpoint_descriptors := fun _ _ => ([], [], []),
    get_itf_descriptor := baseGetItfDescriptor 255 0 255 none,
    handle_device_control_xfer := fun _ _ => .tru,
    handle_interface_control_xfer := fun _ _ => .tru,
    handle_endpoint_control_xfer := fun _ _ => .tru }

/-- A device with no static interfaces, one accepting interface at index 0
and one owned endpoint address `0x82`. -/
def devRouteOk : Dev :=
  { dev0 with itfs := [okItf], eps := [(130, okItf)] }

/-! ### Basic list lemmas about `setSlice` and `shuffleLoop` -/

theorem setSlice_length (b : List Nat) (i : Nat) (xs : List Nat)
    (h : i + xs.length ≤ b.length) : (setSlice b i xs).length = b.length := by
  simp only [setSlice, List.length_append, List.length_take, List.length_drop]
  omega

theorem setSlice_take (b : List Nat) (i : Nat) (xs : List Nat)
    (h : i + xs.length ≤ b.length) :
    (setSlice b i xs).take (i + xs.length) = b.take i ++ xs := by
  have hi : (b.take i).length = i := by
    simp only [List.length_take]
    omega
  have hlen : (b.take i ++ xs).length = i + xs.length := by
    simp [hi]
  calc (setSlice b i xs).take (i + xs.length)
      = ((b.take i ++ xs) ++ b.drop (i + xs.length)).take (i + xs.length) := by
        simp [setSlice, List.append_assoc]
    _ = b.take i ++ xs := by
        rw [List.take_left' hlen]

theorem shuffleGo_length (k : Nat) :
    ∀ (fuel i : Nat) (b : List Nat), (shuffleGo k i fuel b).length = b.length := by
  intro fuel
  induction fuel with
  | zero => intro i b; rfl
  | succ m ih =>
    intro i b
    rw [shuffleGo, ih (i + 1)]
    exact List.length_set ..

theorem shuffleLoop_length (k i stop : Nat) (b : List Nat) :
    (shuffleLoop k i stop b).length = b.length :=
  shuffleGo_length k (stop - i) i b

/-- Zeta-expanded form of `Buffer.write`, convenient for case splits. -/
theorem write_eq (s : Buffer) (data : List Nat) :
    s.write data =
      if min data.length (s.b.length - s.n) = 0 then
        some (s.pend_write, 0)
      else
        (Buffer.finish_write
            { b := setSlice s.b s.n (data.take (min data.length (s.b.length - s.n))),
              n := s.n, w := s.n }
            (min data.length (s.b.length - s.n))).map
          (fun s2 => (s2, min data.length (s.b.length - s.n))) := rfl

/-- Zeta-expanded form of `Buffer.readinto`, convenient for case splits. -/
theorem readinto_eq (s : Buffer) (blen : Nat) :
    s.readinto blen =
      if min s.pend_read.length blen = 0 then
        some (s, [])
      else
        (s.finish_read (min s.pend_read.length blen)).map
          (fun s2 => (s2, s.pend_read.take (min s.pend_read.length blen))) := rfl

theorem inv_finish_write {cap k : Nat} {s s2 : Buffer} (h : Buffer.inv cap s)
    (hw : s.finish_write k = some s2) : Buffer.inv cap s2 := by
  obtain ⟨h1, h2, h3⟩ := h
  unfold Buffer.finish_write at hw
  by_cases hg : s.w + k ≤ s.b.length
  · rw [if_pos hg] at hw
    by_cases hlt : s.n < s.w
    · rw [if_pos hlt, Option.some_inj] at hw
      subst hw
      have hxs : ((s.b.drop s.w).take k).length = k := by
        simp only [List.length_take, List.length_drop]
        omega
      have hb : (setSlice s.b s.n ((s.b.drop s.w).take k)).length = s.b.length := by
        apply setSlice_length
        omega
      refine ⟨?_, ?_, ?_⟩ <;> dsimp only
      · omega
      · rw [hb]
      · rw [hb, h3]
    · rw [if_neg hlt] at hw
      by_cases heq : s.n = s.w
      · rw [if_pos heq, Option.some_inj] at hw
        subst hw
        refine ⟨?_, ?_, ?_⟩ <;> dsimp only
        · omega
        · exact le_refl _
        · exact h3
      · rw [if_neg heq] at hw
        exact Option.noConfusion hw
  · rw [if_neg hg] at hw
    exact Option.noConfusion hw

theorem inv_finish_read {cap k : Nat} {s s2 : Buffer} (h : Buffer.inv cap s)
    (hr : s.finish_read k = some s2) : Buffer.inv cap s2 := by
  obtain ⟨h1, h2, h3⟩ := h
  unfold Buffer.finish_read at hr
  by_cases hg : k ≤ s.n
  · rw [if_pos hg, Option.some_inj] at hr
    subst hr
    refine ⟨?_, ?_, ?_⟩ <;> dsimp only
    · omega
    · rw [shuffleLoop_length]
      exact h2
    · rw [shuffleLoop_length]
      exact h3
  · rw [if_neg hg] at hr
    exact Option.noConfusion hr

theorem inv_write {cap : Nat} {s s2 : Buffer} {m : Nat} {data : List Nat}
    (h : Buffer.inv cap s) (hw : s.write data = some (s2, m)) : Buffer.inv cap s2 := by
  obtain ⟨h1, h2, h3⟩ := h
  rw [write_eq] at hw
  by_cases h0 : min data.length (s.b.length - s.n) = 0
  · rw [if_pos h0, Option.some_inj] at hw
    injection hw with hwa hwb
    subst hwa
    refine ⟨?_, ?_, ?_⟩ <;> simp only [Buffer.pend_write]
    · exact le_refl _
    · omega
    · exact h3
  · rw [if_neg h0, Option.map_eq_some'] at hw
    obtain ⟨s3, hs3, hpair⟩ := hw
    injection hpair with hpa hpb
    subst hpa
    have hb : (setSlice s.b s.n (data.take (min data.length (s.b.length - s.n)))).length
        = s.b.length := by
      apply setSlice_length
      simp only [List.length_take]
      omega
    refine @inv_finish_write cap _ _ _ ⟨?_, ?_, ?_⟩ hs3 <;> dsimp only
    · exact le_refl _
    · rw [hb]
      omega
    · rw [hb, h3]

theorem inv_step {cap : Nat} {s s2 : Buffer} {op : BufOp} (h : Buffer.inv cap s)
    (hs : s.step op = some s2) : Buffer.inv cap s2 := by
  obtain ⟨h1, h2, h3⟩ := h
  cases op with
  | pendWrite =>
    simp only [Buffer.step, Option.some_inj] at hs
    subst hs
    refine ⟨?_, ?_, ?_⟩ <;> simp only [Buffer.pend_write]
    · exact le_refl _
    · omega
    · exact h3
  | finishWrite k => exact inv_finish_write ⟨h1, h2, h3⟩ hs
  | pendRead =>
    simp only [Buffer.step, Option.some_inj] at hs
    subst hs
    exact ⟨h1, h2, h3⟩
  | finishRead k => exact inv_finish_read ⟨h1, h2, h3⟩ hs
  | write data =>
    simp only [Buffer.step, Option.map_eq_some'] at hs
    obtain ⟨⟨s3, m⟩, hw, hfst⟩ := hs
    dsimp only at hfst
    subst hfst
    exact inv_write ⟨h1, h2, h3⟩ hw
  | readinto blen =>
    simp only [Buffer.step, Option.map_eq_some'] at hs
    obtain ⟨⟨s3, bytes⟩, hread, hfst⟩ := hs
    dsimp only at hfst
    subst hfst
    rw [readinto_eq] at hread
    by_cases h0 : min s.pend_read.length blen = 0
    · rw [if_pos h0, Option.some_inj] at hread
      injection hread with hra hrb
      subst hra
      exact ⟨h1, h2, h3⟩
    · rw [if_neg h0, Option.map_eq_some'] at hread
      obtain ⟨s4, hfr, hpair⟩ := hread
      injection hpair with hpa hpb
      subst hpa
      exact inv_finish_read ⟨h1, h2, h3⟩ hfr

theorem inv_run {cap : Nat} : ∀ (ops : List BufOp) (s s2 : Buffer),
    Buffer.inv cap s → Buffer.run s ops = some s2 → Buffer.inv cap s2 := by
  intro ops
  induction ops with
  | nil =>
    intro s s2 h hr
    rw [Buffer.run, Option.some_inj] at hr
    subst hr
    exact h
  | cons op rest ih =>
    intro s s2 h hr
    rw [Buffer.run, Option.bind_eq_some] at hr
    obtain ⟨s3, hstep, hrest⟩ := hr
    exact ih s3 s2 (inv_step h hstep) hrest

/-! ### C10: the implicit buffer invariant -/

/-- C10 (amended).  For every sequence of buffer operations whose
`assert` preconditions hold, starting from a fresh `Buffer(cap)`: the
indices always satisfy `_n ≤ _w ≤ capacity`, the capacity of the byte
region never changes, `readable() + writable() = capacity` always holds,
every successful `finish_write` closes the write window (`_w = capacity`),
and `write(data)` returns exactly `min(len(data), capacity − readable())`
and closes the write window exactly when that count is nonzero — a
zero-byte `write` leaves the window pended at `_w = _n`, as if only
`pend_write` had been called (this last point is where the claim as stated
fails, see the counterexample). -/
theorem buffer_invariant (cap : Nat) (ops : List BufOp) (s : Buffer)
    (h : Buffer.run (Buffer.init cap) ops = some s) :
    s.n ≤ s.w ∧ s.w ≤ s.b.length ∧ s.b.length = cap ∧
    s.readable + s.writable = cap ∧
    (∀ k s2, s.finish_write k = some s2 → s2.w = cap) ∧
    (∀ data s2 m, s.write data = some (s2, m) →
      m = min data.length (cap - s.readable) ∧
      (0 < m → s2.w = cap) ∧
      (m = 0 → s2.w = s.n)) := by
  have hinv : Buffer.inv cap s := by
    refine inv_run ops (Buffer.init cap) s ?_ h
    refine ⟨Nat.zero_le _, ?_, ?_⟩ <;> simp [Buffer.init]
  obtain ⟨h1, h2, h3⟩ := hinv
  refine ⟨h1, h2, h3, ?_, ?_, ?_⟩
  · simp only [Buffer.readable, Buffer.writable]
    omega
  · intro k s2 hw
    unfold Buffer.finish_write at hw
    by_cases hg : s.w + k ≤ s.b.length
    · rw [if_pos hg] at hw
      by_cases hlt : s.n < s.w
      · rw [if_pos hlt, Option.some_inj] at hw
        subst hw
        exact h3
      · rw [if_neg hlt] at hw
        by_cases heq : s.n = s.w
        · rw [if_pos heq, Option.some_inj] at hw
          subst hw
          exact h3
        · rw [if_neg heq] at hw
          exact Option.noConfusion hw
    · rw [if_neg hg] at hw
      exact Option.noConfusion hw
  · intro data s2 m hw
    rw [write_eq] at hw
    by_cases h0 : min data.length (s.b.length - s.n) = 0
    · rw [if_pos h0, Option.some_inj] at hw
      injection hw with hwa hwb
      subst hwa
      subst hwb
      refine ⟨?_, ?_, ?_⟩
      · simp only [Buffer.readable]
        omega
      · intro h
        exact absurd h (by omega)
      · intro _
        rfl
    · rw [if_neg h0, Option.map_eq_some'] at hw
      obtain ⟨s3, hs3, hpair⟩ := hw
      injection hpair with hpa hpb
      subst hpa
      subst hpb
      have hb : (setSlice s.b s.n (data.take (min data.length (s.b.length - s.n)))).length
          = s.b.length := by
        apply setSlice_length
        simp only [List.length_take]
        omega
      refine ⟨by simp only [Buffer.readable]; rw [h3], ?_, ?_⟩
      · intro _
        unfold Buffer.finish_write at hs3
        by_cases hg : (Buffer.mk (setSlice s.b s.n
            (data.take (min data.length (s.b.length - s.n)))) s.n s.n).w
              + min data.length (s.b.length - s.n)
            ≤ (Buffer.mk (setSlice s.b s.n
            (data.take (min data.length (s.b.length - s.n)))) s.n s.n).b.length
        · rw [if_pos hg] at hs3
          have hnn : ¬ (s.n < s.n) := by omega
          rw [if_neg hnn, if_pos rfl, Option.some_inj] at hs3
          subst hs3
          dsimp only
          rw [hb, h3]
        · rw [if_neg hg] at hs3
          exact Option.noConfusion hs3
      · intro h
        exact absurd h h0

/-- Witness for C10 at a concrete run: one two-byte `write` into a fresh
capacity-4 buffer. -/
theorem buffer_invariant_witness :
    (Buffer.mk [1, 2, 0, 0] 2 4).n ≤ (Buffer.mk [1, 2, 0, 0] 2 4).w ∧
    (Buffer.mk [1, 2, 0, 0] 2 4).w ≤ (Buffer.mk [1, 2, 0, 0] 2 4).b.length ∧
    (Buffer.mk [1, 2, 0, 0] 2 4).b.length = 4 ∧
    (Buffer.mk [1, 2, 0, 0] 2 4).readable + (Buffer.mk [1, 2, 0, 0] 2 4).writable = 4 := by
  have h := buffer_invariant 4 [BufOp.write [1, 2]] (Buffer.mk [1, 2, 0, 0] 2 4) (by decide)
  exact ⟨h.1, h.2.1, h.2.2.1, h.2.2.2.1⟩

/-- C10 counterexample.  The claim as stated asserts that whenever no
write is pending, `_w` equals the capacity; the spec describes `write` as a
self-contained pend+finish pair, so after `write(b"")` returns no write
should be pending.  But on a fresh `Buffer(2)`, `write(b"")` computes
`to_w = 0` and therefore skips `finish_write`, leaving `_w = _n = 0 ≠ 2`:
the write window stays pended as if only `pend_write` had been called. -/
theorem buffer_write_empty_leaves_window_open :
    (Buffer.init 2).write [] = some (Buffer.mk [0, 0] 0 0, 0) ∧
    (Buffer.mk [0, 0] 0 0).w = 0 ∧
    (Buffer.mk [0, 0] 0 0).b.length = 2 ∧
    (0 : Nat) ≠ 2 := by
  refine ⟨by decide, rfl, rfl, by decide⟩

/-! ### C2: `finish_write` commits exactly the first `k` pended bytes -/

/-- C2.  In every `Buffer` state with a pended write window
(`_n ≤ _w ≤ len(_b)`, as established by `pend_write` and preserved by
concurrent reads) and for every `k` not exceeding the pended window
(`_w + k ≤ len(_b)`), `finish_write k` succeeds and commits exactly the
first `k` bytes of the pended window `_b[_w:]` as newly readable: the
capacity is unchanged, `readable()` grows by exactly `k`, the write window
is closed (`_w = capacity`), and the readable region afterwards is the
readable bytes present at commit time followed immediately by those `k`
bytes (relocated toward the front when `_n` had decreased below `_w`). -/
theorem finish_write_commits (s : Buffer) (k : Nat)
    (hnw : s.n ≤ s.w) (hwl : s.w ≤ s.b.length) (hk : s.w + k ≤ s.b.length) :
    ∃ s2 : Buffer, s.finish_write k = some s2 ∧
      s2.b.length = s.b.length ∧
      s2.readable = s.readable + k ∧
      s2.w = s.b.length ∧
      s2.b.take (s.n + k) = s.b.take s.n ++ (s.b.drop s.w).take k := by
  have hxs : ((s.b.drop s.w).take k).length = k := by
    simp only [List.length_take, List.length_drop]
    omega
  rcases Nat.lt_or_ge s.n s.w with hlt | hge
  · -- data was consumed while the write was pending: the copy branch
    refine ⟨{ b := setSlice s.b s.n ((s.b.drop s.w).take k),
              n := s.n + k, w := s.b.length }, ?_, ?_, ?_, rfl, ?_⟩
    · simp only [Buffer.finish_write, if_pos hk, if_pos hlt]
    · simpa [hxs] using setSlice_length s.b s.n ((s.b.drop s.w).take k) (by omega)
    · simp [Buffer.readable]
    · have := setSlice_take s.b s.n ((s.b.drop s.w).take k) (by omega)
      simpa [hxs] using this
  · -- no interleaved read: `_n == _w`, data is already in place
    have heq : s.n = s.w := Nat.le_antisymm hnw hge
    have hnlt : ¬ s.n < s.w := by omega
    refine ⟨{ s with n := s.n + k, w := s.b.length }, ?_, rfl, ?_, rfl, ?_⟩
    · simp only [Buffer.finish_write, if_pos hk, if_neg hnlt, if_pos heq]
    · simp [Buffer.readable]
    · rw [List.take_add, heq]

/-- Witness for C2 at a concrete input: capacity 4, readable data consumed
down to one byte while a two-byte write was pending at offset 2; the two
pended bytes are relocated to follow the remaining readable byte. -/
theorem finish_write_commits_witness :
    (Buffer.mk [7, 8, 30, 40] 1 2).finish_write 2 = some (Buffer.mk [7, 30, 40, 40] 3 4) ∧
    (Buffer.mk [7, 30, 40, 40] 3 4).b.length = 4 ∧
    (Buffer.mk [7, 30, 40, 40] 3 4).readable = 1 + 2 ∧
    (Buffer.mk [7, 30, 40, 40] 3 4).w = 4 ∧
    (Buffer.mk [7, 30, 40, 40] 3 4).b.take (1 + 2) = [7] ++ [30, 40] := by
  obtain ⟨s2, h1, h2, h3, h4, h5⟩ := finish_write_commits (Buffer.mk [7, 8, 30, 40] 1 2) 2
    (by decide) (by decide) (by decide)
  have hs : s2 = Buffer.mk [7, 30, 40, 40] 3 4 :=
    Option.some_inj.mp (h1.symm.trans rfl)
  subst hs
  exact ⟨h1, h2, h3, h4, h5⟩

/-! ### C9: round trip on a capacity-16 buffer -/

/-- C9.  Round trip on `Buffer(16)`: initially `readable() = 0` and
`writable() = 16`; `write(b"12345678")` returns 8; reading the buffer out
in full yields exactly `b"12345678"`; afterwards `readable() = 0` and
`writable() = 16` again.  (Byte values are the ASCII codes 49..56.) -/
theorem buffer_roundtrip :
    (Buffer.init 16).readable = 0 ∧
    (Buffer.init 16).writable = 16 ∧
    (Buffer.init 16).write [49, 50, 51, 52, 53, 54, 55, 56] =
      some (Buffer.mk [49, 50, 51, 52, 53, 54, 55, 56, 0, 0, 0, 0, 0, 0, 0, 0] 8 16, 8) ∧
    (Buffer.mk [49, 50, 51, 52, 53, 54, 55, 56, 0, 0, 0, 0, 0, 0, 0, 0] 8 16).readinto 16 =
      some (Buffer.mk [49, 50, 51, 52, 53, 54, 55, 56, 0, 0, 0, 0, 0, 0, 0, 0] 0 16,
        [49, 50, 51, 52, 53, 54, 55, 56]) ∧
    (Buffer.mk [49, 50, 51, 52, 53, 54, 55, 56, 0, 0, 0, 0, 0, 0, 0, 0] 0 16).readable = 0 ∧
    (Buffer.mk [49, 50, 51, 52, 53, 54, 55, 56, 0, 0, 0, 0, 0, 0, 0, 0] 0 16).writable = 16 := by
  refine ⟨rfl, rfl, ?_, ?_, rfl, rfl⟩ <;> decide

/-! ### Association-list lemmas -/

theorem lookupAssoc_setAssoc_self {β : Type} :
    ∀ (l : List (Nat × β)) (k : Nat) (v : β),
      lookupAssoc (setAssoc l k v) k = some v := by
  intro l
  induction l with
  | nil =>
    intro k v
    simp [setAssoc, lookupAssoc]
  | cons p t ih =>
    intro k v
    obtain ⟨k2, v2⟩ := p
    by_cases hk : k2 = k
    · simp [setAssoc, lookupAssoc, hk]
    · simp only [setAssoc, if_neg hk, lookupAssoc]
      exact ih k v

theorem setAssoc_setAssoc {β : Type} :
    ∀ (l : List (Nat × β)) (k : Nat) (x v : β),
      setAssoc (setAssoc l k x) k v = setAssoc l k v := by
  intro l
  induction l with
  | nil =>
    intro k x v
    simp [setAssoc]
  | cons p t ih =>
    intro k x v
    obtain ⟨k2, v2⟩ := p
    by_cases hk : k2 = k
    · simp [setAssoc, hk]
    · simp only [setAssoc, if_neg hk]
      rw [ih]

theorem setAssoc_of_lookup {β : Type} :
    ∀ (l : List (Nat × β)) (k : Nat) (v : β),
      lookupAssoc l k = some v → setAssoc l k v = l := by
  intro l
  induction l with
  | nil =>
    intro k v h
    exact Option.noConfusion h
  | cons p t ih =>
    intro k v h
    obtain ⟨k2, v2⟩ := p
    by_cases hk : k2 = k
    · rw [lookupAssoc, if_pos hk, Option.some_inj] at h
      rw [setAssoc, if_pos hk, hk, h]
    · rw [lookupAssoc, if_neg hk] at h
      rw [setAssoc, if_neg hk, ih k v h]

theorem lookupAssoc_mapval {α : Type} :
    ∀ (l : List (Nat × Option α)) (k : Nat),
      lookupAssoc (l.map (fun p => (p.1, (none : Option α)))) k =
        (lookupAssoc l k).map (fun _ => none) := by
  intro l
  induction l with
  | nil => intro k; rfl
  | cons p t ih =>
    intro k
    obtain ⟨k2, v2⟩ := p
    by_cases hk : k2 = k
    · simp [lookupAssoc, hk]
    · simp only [List.map_cons, lookupAssoc, if_neg hk]
      exact ih k

/-! ### C3: busy rejection and re-arming after completion -/

/-- C3.  If a transfer is pending on endpoint `ep` (a completion
callback `c` is registered), then: a new submission fails with
`RuntimeError("xfer_pending")` — whatever the bus driver would have said —
and leaves the registry (hence the registered callback) unchanged;
completion dispatch via `_xfer_cb` hands back exactly `c`, having cleared
the pending mark *before* `c` is invoked; and in the state in which `c`
runs — which is also the state after dispatch — a new submission on the
same endpoint succeeds (bus driver accepting). -/
theorem submit_busy_and_rearm {α : Type} (r : RegDev α) (ep : Nat) (c : α)
    (hw : Bool) (cb2 : Option α)
    (hpend : lookupAssoc r.ep_cbs ep = some (some c)) :
    submitXfer r ep hw cb2 = (.xferPending, r) ∧
    (xferCb r ep).1 = some c ∧
    lookupAssoc (xferCb r ep).2.ep_cbs ep = some none ∧
    (submitXfer (xferCb r ep).2 ep true cb2).1 = .ok := by
  have hx : xferCb r ep = (some c, { r with ep_cbs := setAssoc r.ep_cbs ep none }) := by
    rw [xferCb, hpend]
  refine ⟨?_, ?_, ?_, ?_⟩
  · rw [submitXfer, hpend]
  · rw [hx]
  · rw [hx]
    exact lookupAssoc_setAssoc_self r.ep_cbs ep none
  · rw [hx]
    dsimp only
    rw [submitXfer]
    rw [lookupAssoc_setAssoc_self r.ep_cbs ep none]
    rfl

/-- Witness for C3: endpoint address `0x82` with pending callback token
`7`. -/
theorem submit_busy_and_rearm_witness :
    submitXfer (RegDev.mk [(130, some 7)] [true]) 130 false (some 9) =
      (.xferPending, RegDev.mk [(130, some 7)] [true]) ∧
    (xferCb (RegDev.mk [(130, some 7)] [true]) 130).1 = some 7 ∧
    lookupAssoc (xferCb (RegDev.mk [(130, some 7)] [true]) 130).2.ep_cbs 130 = some none ∧
    (submitXfer (xferCb (RegDev.mk [(130, some 7)] [true]) 130).2 130 true (some 9)).1 =
      .ok := by
  have h := submit_busy_and_rearm (RegDev.mk [(130, some (7 : Nat))] [true]) 130 7
    false (some 9) (by rfl)
  exact ⟨h.1, h.2.1, h.2.2.1, h.2.2.2⟩

/-! ### C7: rollback on bus-driver rejection -/

/-- C7.  If the endpoint is known and free and the bus driver rejects
the transfer (`self._usbd.submit_xfer` returns a falsy value), the
submission raises `RuntimeError("submit failed")` and the registry state is
rolled back to exactly the state before the call; in particular a
subsequent submission on the same endpoint does not fail with the busy
error — it succeeds when the bus driver accepts. -/
theorem submit_rollback {α : Type} (r : RegDev α) (ep : Nat) (cb cb2 : Option α)
    (hfree : lookupAssoc r.ep_cbs ep = some none) :
    (submitXfer r ep false cb).1 = .submitFailed ∧
    (submitXfer r ep false cb).2 = r ∧
    (submitXfer (submitXfer r ep false cb).2 ep true cb2).1 = .ok := by
  have hs : submitXfer r ep false cb = (.submitFailed,
      { r with ep_cbs := setAssoc (setAssoc r.ep_cbs ep cb) ep none }) := by
    rw [submitXfer, hfree]
    rfl
  have hroll : setAssoc (setAssoc r.ep_cbs ep cb) ep none = r.ep_cbs := by
    rw [setAssoc_setAssoc]
    exact setAssoc_of_lookup r.ep_cbs ep none hfree
  have hs2 : submitXfer r ep false cb = (.submitFailed, r) := by
    rw [hs, hroll]
  refine ⟨by rw [hs2], by rw [hs2], ?_⟩
  · rw [hs2]
    dsimp only
    rw [submitXfer, hfree]
    rfl

/-- Witness for C7: endpoint `3`, known and free, bus driver rejecting. -/
theorem submit_rollback_witness :
    (submitXfer (RegDev.mk [(3, none)] []) 3 false (some 5)).1 = .submitFailed ∧
    (submitXfer (RegDev.mk [(3, (none : Option Nat))] []) 3 false (some 5)).2 =
      RegDev.mk [(3, none)] [] ∧
    (submitXfer (submitXfer (RegDev.mk [(3, (none : Option Nat))] []) 3 false
      (some 5)).2 3 true (some 5)).1 = .ok := by
  have h := submit_rollback (RegDev.mk [(3, (none : Option Nat))] []) 3 (some 5) (some 5)
    (by rfl)
  exact h

/-! ### C6: bus reset clears all pending marks and closes all interfaces -/

/-- C6.  For every registry state, `_reset_cb` first sets every
endpoint's pending-callback entry to `None` — invoking no completion
callback (second component empty) — and then runs `handle_reset` on every
registered interface, so that afterwards any endpoint present in the map
has no pending callback (its key is preserved), and every registered
interface's `_open` flag is `False` (`is_open()` returns `False`),
regardless of the prior state. -/
theorem reset_clears_and_closes {α : Type} (r : RegDev α) (e : Nat) (v : Option α)
    (hv : lookupAssoc (resetCb r).1.ep_cbs e = some v) :
    v = none ∧
    (lookupAssoc r.ep_cbs e).isSome = true ∧
    (resetCb r).1.itf_open = List.replicate r.itf_open.length false ∧
    (resetCb r).2 = ([] : List α) := by
  rw [resetCb] at hv ⊢
  dsimp only at hv ⊢
  rw [lookupAssoc_mapval] at hv
  refine ⟨?_, ?_, ?_, rfl⟩
  · cases hl : lookupAssoc r.ep_cbs e with
    | none =>
      rw [hl] at hv
      exact Option.noConfusion hv
    | some u =>
      rw [hl] at hv
      simp only [Option.map_some', Option.some_inj] at hv
      exact hv.symm
  · cases hl : lookupAssoc r.ep_cbs e with
    | none =>
      rw [hl] at hv
      exact Option.noConfusion hv
    | some u => rfl
  · induction r.itf_open with
    | nil => rfl
    | cons bhead t ih =>
      simp only [List.map_cons, List.length_cons, List.replicate_succ, List.cons.injEq]
      exact ⟨trivial, ih⟩

/-- Witness for C6: two endpoints (one pending, one free) and two
interfaces (one open, one closed). -/
theorem reset_clears_and_closes_witness :
    (none : Option Nat) = none ∧
    (lookupAssoc [(129, some 4), (2, (none : Option Nat))] 129).isSome = true ∧
    (resetCb (RegDev.mk [(129, some (4 : Nat)), (2, none)] [true, false])).1.itf_open =
      List.replicate 2 false ∧
    (resetCb (RegDev.mk [(129, some (4 : Nat)), (2, none)] [true, false])).2 = [] := by
  have h := reset_clears_and_closes
    (RegDev.mk [(129, some (4 : Nat)), (2, none)] [true, false]) 129 none (by rfl)
  exact ⟨h.1, h.2.1, h.2.2.1, h.2.2.2⟩

/-! ### Decomposition lemmas for the configuration build -/

theorem setSlice_zero_getD (b xs : List Nat) (i : Nat) (hi : i < xs.length) :
    (setSlice b 0 xs).getD i 0 = xs.getD i 0 := by
  simp only [setSlice, List.take_zero, List.nil_append, Nat.zero_add]
  exact List.getD_append _ _ _ _ hi

theorem descriptorConfigCb_cases (d d2 : Dev) (desc : List Nat)
    (h : descriptorConfigCb d = some (d2, desc)) :
    updateConfigurationDescriptor d ((d.itfs.foldl buildStep (buildAcc0 d)).desc)
      = some desc ∧
    d2 = { d with eps := (d.itfs.foldl buildStep (buildAcc0 d)).eps,
                  ep_cbs := (d.itfs.foldl buildStep (buildAcc0 d)).ep_cbs,
                  strs := (d.itfs.foldl buildStep (buildAcc0 d)).strs } := by
  have h2 : (match updateConfigurationDescriptor d
        ((d.itfs.foldl buildStep (buildAcc0 d)).desc) with
      | none => (none : Option (Dev × List Nat))
      | some desc2 =>
        some ({ d with eps := (d.itfs.foldl buildStep (buildAcc0 d)).eps,
                       ep_cbs := (d.itfs.foldl buildStep (buildAcc0 d)).ep_cbs,
                       strs := (d.itfs.foldl buildStep (buildAcc0 d)).strs }, desc2))
      = some (d2, desc) := h
  cases hu : updateConfigurationDescriptor d
      ((d.itfs.foldl buildStep (buildAcc0 d)).desc) with
  | none =>
    rw [hu] at h2
    exact Option.noConfusion h2
  | some dsc =>
    rw [hu] at h2
    rw [Option.some_inj] at h2
    injection h2 with ha hb
    subst hb
    exact ⟨rfl, ha.symm⟩

/-! ### C4: header fields of the built configuration descriptor -/

/-- C4 (amended).  Whenever `_descriptor_config_cb` returns a
descriptor, its header encodes `wTotalLength` (bytes 2–3, little-endian)
equal to the returned descriptor's byte length *modulo 2^16* and
`bNumInterfaces` (byte 4) equal to the static interface count (when static
interfaces are included, otherwise zero) plus the registered interface
count *modulo 2^8*; the claimed exact equalities hold whenever those
quantities fit their 16-bit / 8-bit fields (MicroPython `ustruct.pack`
silently truncates them otherwise, which is where the claim as stated
fails — see the counterexample). -/
theorem config_descriptor_header_fields (d d2 : Dev) (desc : List Nat)
    (h : descriptorConfigCb d = some (d2, desc)) :
    desc.getD 2 0 + 256 * desc.getD 3 0 = desc.length % 65536 ∧
    desc.getD 4 0 =
      ((if d.include_static then d.static.itf_max else 0) + d.itfs.length) % 256 ∧
    (desc.length < 65536 → desc.getD 2 0 + 256 * desc.getD 3 0 = desc.length) ∧
    ((if d.include_static then d.static.itf_max else 0) + d.itfs.length < 256 →
      desc.getD 4 0 =
        (if d.include_static then d.static.itf_max else 0) + d.itfs.length) := by
  obtain ⟨hu, _⟩ := descriptorConfigCb_cases d d2 desc h
  unfold updateConfigurationDescriptor at hu
  cases hgs : getStrIndex d.static.str_max d.strs d.config_str with
  | none =>
    rw [hgs] at hu
    exact Option.noConfusion hu
  | some i0 =>
    simp only [hgs] at hu
    by_cases hlen : 9 ≤ (d.itfs.foldl buildStep (buildAcc0 d)).desc.length
    · rw [if_pos hlen, Option.some_inj] at hu
      subst hu
      have h9 : ([9, 2, (d.itfs.foldl buildStep (buildAcc0 d)).desc.length % 256,
          (d.itfs.foldl buildStep (buildAcc0 d)).desc.length / 256 % 256,
          ((if d.include_static then d.static.itf_max else 0) + d.itfs.length) % 256,
          1,
          (if d.include_static = true ∧ i0 = 0
            then (d.itfs.foldl buildStep (buildAcc0 d)).desc.getD 6 0 else i0) % 256,
          (128 + (if d.max_power_ma ≠ 0 then 0 else 64)) % 256,
          d.max_power_ma % 256] : List Nat).length = 9 := rfl
      have hL := setSlice_length ((d.itfs.foldl buildStep (buildAcc0 d)).desc) 0 _
        (by rw [h9]; omega)
      have hg2 := setSlice_zero_getD ((d.itfs.foldl buildStep (buildAcc0 d)).desc) _ 2
        (by rw [h9]; omega)
      have hg3 := setSlice_zero_getD ((d.itfs.foldl buildStep (buildAcc0 d)).desc) _ 3
        (by rw [h9]; omega)
      have hg4 := setSlice_zero_getD ((d.itfs.foldl buildStep (buildAcc0 d)).desc) _ 4
        (by rw [h9]; omega)
      rw [hL, hg2, hg3, hg4]
      simp only [List.getD_cons_succ, List.getD_cons_zero]
      refine ⟨by omega, trivial, by omega, by omega⟩
    · rw [if_neg hlen] at hu
      exact Option.noConfusion hu

/-- Witness for C4: the empty composite device `dev0`, whose build returns
the bare 9-byte header. -/
theorem config_descriptor_header_fields_witness :
    ([9, 2, 9, 0, 0, 1, 0, 128, 50] : List Nat).getD 2 0 +
      256 * ([9, 2, 9, 0, 0, 1, 0, 128, 50] : List Nat).getD 3 0 =
      ([9, 2, 9, 0, 0, 1, 0, 128, 50] : List Nat).length % 65536 ∧
    ([9, 2, 9, 0, 0, 1, 0, 128, 50] : List Nat).getD 4 0 =
      ((if dev0.include_static then dev0.static.itf_max else 0) + dev0.itfs.length) % 256 ∧
    ([9, 2, 9, 0, 0, 1, 0, 128, 50] : List Nat).getD 2 0 +
      256 * ([9, 2, 9, 0, 0, 1, 0, 128, 50] : List Nat).getD 3 0 = 9 ∧
    ([9, 2, 9, 0, 0, 1, 0, 128, 50] : List Nat).getD 4 0 = 0 := by
  have h := config_descriptor_header_fields dev0 dev0 [9, 2, 9, 0, 0, 1, 0, 128, 50] rfl
  exact ⟨h.1, h.2.1, h.2.2.1 (by decide), h.2.2.2 (by decide)⟩

set_option maxRecDepth 4000 in
set_option maxHeartbeats 4000000 in
/-- C4 counterexample.  With 256 interfaces registered (and
static interfaces excluded), the build succeeds but writes
`bNumInterfaces = 256 % 256 = 0` into byte 4 of the header, while built-in
count plus registered count is `256`: the field does not equal that sum,
because MicroPython `ustruct.pack` truncates the byte field. -/
theorem config_descriptor_interface_count_truncates :
    bNumInterfacesField dev256 = some 0 ∧
    (if dev256.include_static then dev256.static.itf_max else 0) + dev256.itfs.length
      = 256 ∧
    (0 : Nat) ≠ 256 := by
  refine ⟨by decide, by decide, by decide⟩

/-! ### C5: determinism of repeated configuration builds -/

/-- C5 (amended).  The configuration build is a pure function of the
device state, but the configuration-string index written to header byte 6
is looked up in the *previous* string table `self._strs` (the rebuilt
table is assigned only after the header is patched).  Hence: once one
build has run, the state is a fixed point — every later build returns the
same state and byte-identical descriptor data.  Two consecutive calls with
no intervening change therefore return byte-identical data from the second
call onward (and already from the first call whenever the starting string
table is not stale); the first call can differ, see the counterexample. -/
theorem config_build_byte_identical_from_second (d d1 d2 : Dev)
    (desc1 desc2 : List Nat)
    (h1 : descriptorConfigCb d = some (d1, desc1))
    (h2 : descriptorConfigCb d1 = some (d2, desc2)) :
    d2 = d1 ∧ descriptorConfigCb d2 = some (d2, desc2) := by
  obtain ⟨hu1, hd1⟩ := descriptorConfigCb_cases d d1 desc1 h1
  obtain ⟨hu2, hd2⟩ := descriptorConfigCb_cases d1 d2 desc2 h2
  subst hd1
  subst hd2
  exact ⟨rfl, h2⟩

/-- Witness for C5 at a concrete device: the second and third builds on
`devStale` agree (both return the `iConfiguration = 0` descriptor). -/
theorem config_build_byte_identical_from_second_witness :
    devStale1 = devStale1 ∧
    descriptorConfigCb devStale1 = some (devStale1, [9, 2, 9, 0, 0, 1, 0, 128, 50]) := by
  have h := config_build_byte_identical_from_second devStale devStale1 devStale1
    [9, 2, 9, 0, 0, 1, 1, 128, 50] [9, 2, 9, 0, 0, 1, 0, 128, 50] rfl rfl
  exact h

/-- C5 counterexample.  On `devStale` — reachable by setting
`manufacturer_str = "X"` and `config_str = "C"`, building once (string
table becomes `["X", "C"]`), then clearing `manufacturer_str` — two
consecutive builds with no intervening change return different bytes: the
first still resolves `config_str` in the stale table (index 1), the second
in the rebuilt table (index 0), so header byte 6 differs. -/
theorem config_build_first_call_differs :
    descriptorConfigCb devStale = some (devStale1, [9, 2, 9, 0, 0, 1, 1, 128, 50]) ∧
    descriptorConfigCb devStale1 = some (devStale1, [9, 2, 9, 0, 0, 1, 0, 128, 50]) ∧
    ([9, 2, 9, 0, 0, 1, 1, 128, 50] : List Nat) ≠ [9, 2, 9, 0, 0, 1, 0, 128, 50] := by
  refine ⟨rfl, rfl, by decide⟩

/-! ### C1: control-transfer routing by recipient -/

/-- C1 (amended).  For every device state, stage and request whose
device/interface-recipient index (`wIndex & 0xFFFF`) is not below the
static interface count: a device- or interface-recipient request is
dispatched exactly to the registered interface at adjusted index `wIndex`
minus the static count (its `handle_device_control_xfer` resp.
`handle_interface_control_xfer` decides the reply), an endpoint-recipient
request exactly to the interface owning endpoint address `wIndex` in the
`self._eps` map, and any request with no owning interface — missing index,
unmapped endpoint, or any other recipient — returns `False` (protocol
STALL), never `True`, never a buffer, and no exception escapes.  The
as-stated claim additionally covered device/interface requests with
`wIndex` below the static count; those crash with `AssertionError` in
`_get_interface`, see the counterexample. -/
theorem control_xfer_routing (d : Dev) (stage : Nat) (req : Request)
    (hidx : ((split_bmRequestType req.bmRequestType).1 = 0 ∨
             (split_bmRequestType req.bmRequestType).1 = 1) →
      d.static.itf_max ≤ req.wIndex % 65536) :
    ((split_bmRequestType req.bmRequestType).1 = 0 →
      controlXferCb d stage req =
        match d.itfs.get? (req.wIndex % 65536 - d.static.itf_max) with
        | none => .ok (.pyBool false)
        | some itf => .ok (replyOf req (itf.handle_device_control_xfer stage req))) ∧
    ((split_bmRequestType req.bmRequestType).1 = 1 →
      controlXferCb d stage req =
        match d.itfs.get? (req.wIndex % 65536 - d.static.itf_max) with
        | none => .ok (.pyBool false)
        | some itf => .ok (replyOf req (itf.handle_interface_control_xfer stage req))) ∧
    ((split_bmRequestType req.bmRequestType).1 = 2 →
      controlXferCb d stage req =
        match lookupAssoc d.eps (req.wIndex % 65536) with
        | none => .ok (.pyBool false)
        | some itf => .ok (replyOf req (itf.handle_endpoint_control_xfer stage req))) ∧
    ((split_bmRequestType req.bmRequestType).1 ≠ 0 →
      (split_bmRequestType req.bmRequestType).1 ≠ 1 →
      (split_bmRequestType req.bmRequestType).1 ≠ 2 →
      controlXferCb d stage req = .ok (.pyBool false)) := by
  refine ⟨?_, ?_, ?_, ?_⟩
  · intro h0
    have hge := hidx (Or.inl h0)
    have hni : ¬ (req.wIndex % 65536 < d.static.itf_max) := by omega
    simp only [controlXferCb, if_pos h0, getInterface, if_neg hni]
    cases d.itfs.get? (req.wIndex % 65536 - d.static.itf_max) <;> rfl
  · intro h1
    have hn0 : ¬ ((split_bmRequestType req.bmRequestType).1 = 0) := by omega
    have hge := hidx (Or.inr h1)
    have hni : ¬ (req.wIndex % 65536 < d.static.itf_max) := by omega
    simp only [controlXferCb, if_neg hn0, if_pos h1, getInterface, if_neg hni]
    cases d.itfs.get? (req.wIndex % 65536 - d.static.itf_max) <;> rfl
  · intro h2
    have hn0 : ¬ ((split_bmRequestType req.bmRequestType).1 = 0) := by omega
    have hn1 : ¬ ((split_bmRequestType req.bmRequestType).1 = 1) := by omega
    simp only [controlXferCb, if_neg hn0, if_neg hn1, if_pos h2]
  · intro hn0 hn1 hn2
    simp only [controlXferCb, if_neg hn0, if_neg hn1, if_neg hn2]

/-- Witness for C1: an interface-recipient request routed to the accepting
interface at index 0, an endpoint-recipient request routed to the owner of
endpoint `0x82`, and an interface-recipient request whose index has no
registered interface, which STALLs. -/
theorem control_xfer_routing_witness :
    controlXferCb devRouteOk 1 (Request.mk 33 34 0 0 0) = .ok (.pyBool true) ∧
    controlXferCb devRouteOk 1 (Request.mk 2 1 0 130 0) = .ok (.pyBool true) ∧
    controlXferCb devRouteOk 1 (Request.mk 33 34 0 7 0) = .ok (.pyBool false) := by
  have hA := control_xfer_routing devRouteOk 1 (Request.mk 33 34 0 0 0)
    (fun _ => Nat.zero_le _)
  have hB := control_xfer_routing devRouteOk 1 (Request.mk 2 1 0 130 0)
    (fun _ => Nat.zero_le _)
  have hC := control_xfer_routing devRouteOk 1 (Request.mk 33 34 0 7 0)
    (fun _ => Nat.zero_le _)
  exact ⟨hA.2.1 rfl, hB.2.2.1 rfl, hC.2.1 rfl⟩

/-- C1 counterexample.  On a device with one static interface
(`itf_max = 1`), an interface-recipient request with `wIndex = 0` — an
index owned by the static interface, which a host can address at any
time — makes `_get_interface` compute a negative index and fail its
`assert`: the callback raises `AssertionError` instead of returning the
claimed `False` (STALL). -/
theorem control_xfer_crashes_on_static_index :
    controlXferCb devRouteStatic 1 (Request.mk 1 0 0 0 0) = .error .assertionError ∧
    (Except.error PyErr.assertionError : Except PyErr CtrlResult) ≠
      .ok (.pyBool false) := by
  refine ⟨rfl, ?_⟩
  intro h
  exact Except.noConfusion h

/-! ### C8: string-descriptor lookup -/

/-- C8 (amended).  For every index at or above the static string
count: if `index` minus that offset addresses a string of the table built
by the most recent configuration build, `_descriptor_string_cb` returns
that string; past the end of the table it returns `None` (not-found)
rather than raising.  The as-stated claim additionally covered indices
*below* the static offset; those fail the `assert` (AssertionError)
instead of degrading to not-found, see the counterexample. -/
theorem string_descriptor_lookup (d : Dev) (index : Nat)
    (h : d.static.str_max ≤ index) :
    (∀ t, d.strs.get? (index - d.static.str_max) = some t →
      descriptorStringCb d index = .ok (some t)) ∧
    (d.strs.length ≤ index - d.static.str_max →
      descriptorStringCb d index = .ok none) := by
  have hni : ¬ index < d.static.str_max := by omega
  constructor
  · intro t ht
    rw [descriptorStringCb, if_neg hni, ht]
  · intro hlen
    rw [descriptorStringCb, if_neg hni, List.get?_eq_none.mpr hlen]

/-- Witness for C8 on `devStrs` (`str_max = 2`, table `["a", "b"]`): index
3 resolves to `"b"`, index 9 is past the table and yields not-found. -/
theorem string_descriptor_lookup_witness :
    descriptorStringCb devStrs 3 = .ok (some "b") ∧
    descriptorStringCb devStrs 9 = .ok none := by
  have h3 := (string_descriptor_lookup devStrs 3 (by decide)).1 "b" rfl
  have h9 := (string_descriptor_lookup devStrs 9 (by decide)).2 (by decide)
  exact ⟨h3, h9⟩

/-- C8 counterexample.  On `devStrs` (static offset 2), index 1 is
below the built-in offset; the claim says such a lookup fails gracefully
with an empty/not-found result, but the code's `assert index >= 0` raises
`AssertionError`. -/
theorem string_descriptor_crashes_below_offset :
    descriptorStringCb devStrs 1 = .error .assertionError ∧
    (Except.error PyErr.assertionError : Except PyErr (Option String)) ≠ .ok none := by
  refine ⟨rfl, ?_⟩
  intro h
  exact Except.noConfusion h

end USBD
